import Mathlib

/-!
Verification development for the TellCo telecom-analytics repository.

Part 1 embeds the engagement/experience scorer (`compute_scores`), the single
substantive algorithm of the system.  Its code is not among the shipped source
files (only the dashboard, database and preprocessing helpers are), so the
scorer is modelled from the specification, as noted on each definition.

Part 2 embeds the tabular preprocessing helpers of
`src/preprocessing.py` (`PreprocessingUtils`): `drop_columns_with_null`,
`remove_outliers_from_dataframe` and `impute_nulls`.

Real numbers stand for the float values of the original code; rationals are
used for all arithmetic that the code performs exactly (sums, differences,
squares, quantile interpolation), and `Real.sqrt` only at the final step of a
Euclidean distance.
-/

namespace TellCo

/-- A cell of the metrics table: either a numeric value or a text value
(pandas object dtype). -/
inductive Cell where
  | num (q : ℚ)
  | text (s : String)
deriving DecidableEq

/-- Whether a cell is numeric. -/
def Cell.isNum : Cell → Bool
  | .num _ => true
  | .text _ => false

/-- Numeric value of a cell; text cells (never reached after validation)
default to 0. -/
def Cell.toQ : Cell → ℚ
  | .num q => q
  | .text _ => 0

/-- One row of a MetricsTable: an integer cluster label plus the metric
cells, one per non-cluster column. -/
structure MRow where
  cluster : Int
  cells : List Cell
deriving DecidableEq

/-- Failure conditions of the scorer, from the error-handling taxonomy. -/
inductive ScoreError where
  | invalidColumnType
  | invalidReferenceCluster
deriving DecidableEq

/-- Squared Euclidean distance between two metric vectors, taken columnwise. -/
def sqDist (u v : List ℚ) : ℚ :=
  ((u.zip v).map (fun p => (p.1 - p.2) ^ 2)).sum

/-- Minimum squared distance from the vector `v` to a set of reference
vectors (0 when the set is empty; the scorer never reaches that case). -/
def minSqDist (v : List ℚ) (refs : List (List ℚ)) : ℚ :=
  match refs with
  | [] => 0
  | r :: rs => (rs.map (sqDist v)).foldl min (sqDist v r)

/-- Metric vectors of the rows carrying the reference cluster label, in
table order. -/
def refRowsOf (table : List MRow) (refId : Int) : List (List ℚ) :=
  (table.filter (fun r => r.cluster == refId)).map (fun r => r.cells.map Cell.toQ)

/-- Squared score of a single row: 0 for members of the reference cluster,
minimum squared distance to the reference set otherwise. -/
def rowSqScore (refId : Int) (refs : List (List ℚ)) (r : MRow) : ℚ :=
  if r.cluster == refId then 0 else minSqDist (r.cells.map Cell.toQ) refs

/-- Modelled from the spec: the engagement/experience scorer
`compute_scores(metrics_table, reference_cluster_id)`, whose source code is
not among the shipped files.  Squared-score form: empty input returns an
empty vector; a non-numeric metric cell fails with `InvalidColumnType`
before any distance; an empty reference set fails with
`InvalidReferenceCluster`; otherwise each row is mapped, in input order, to
0 (reference member) or its minimum squared distance to the reference set. -/
def computeSqScores (table : List MRow) (refId : Int) :
    Except ScoreError (List ℚ) :=
  if table.isEmpty then Except.ok []
  else if (table.all fun r => r.cells.all Cell.isNum) = false then
    Except.error ScoreError.invalidColumnType
  else if (refRowsOf table refId).isEmpty then
    Except.error ScoreError.invalidReferenceCluster
  else Except.ok (table.map (rowSqScore refId (refRowsOf table refId)))

/-- Modelled from the spec: the scorer returning true Euclidean distances,
obtained from the squared scores by a square root per entry. -/
noncomputable def computeScores (table : List MRow) (refId : Int) :
    Except ScoreError (List ℝ) :=
  (computeSqScores table refId).map (fun l => l.map (fun q : ℚ => Real.sqrt ((q : ℚ) : ℝ)))

/-- Euclidean distance between two metric vectors. -/
noncomputable def euclidDist (u v : List ℚ) : ℝ :=
  Real.sqrt ((sqDist u v : ℚ) : ℝ)

/-- Minimum Euclidean distance from the vector `v` to a set of reference
vectors, as the spec words it: the distance to every reference row is
computed and the minimum taken. -/
noncomputable def minEuclidDist (v : List ℚ) (refs : List (List ℚ)) : ℝ :=
  match refs with
  | [] => 0
  | r :: rs => (rs.map (euclidDist v)).foldl min (euclidDist v r)

/-! ## Part 2: the preprocessing helpers of `src/preprocessing.py` -/

/-- A named column of a pandas DataFrame; a `none` entry is a null (NaN). -/
structure DFCol where
  name : String
  values : List (Option ℚ)
deriving DecidableEq

/-- A column-oriented DataFrame. -/
structure DataFrame where
  cols : List DFCol
deriving DecidableEq

/-- The row count, as Python computes it with len of the frame: the length
of the first column, 0 when there are no columns. -/
def DataFrame.nrows (df : DataFrame) : Nat :=
  match df.cols with
  | [] => 0
  | c :: _ => c.values.length

/-- The fraction of null entries of one column, the per-column value of
the source expression df.isnull().sum() / len(df). -/
def nullFrac (nrows : Nat) (c : DFCol) : ℚ :=
  ((c.values.countP fun v => v.isNone : Nat) : ℚ) / (nrows : ℚ)

/-- Embeds `PreprocessingUtils.drop_columns_with_null` (preprocessing.py
lines 21-28): computes each column null fraction against `len(df)` and
drops the columns whose fraction strictly exceeds the threshold;
`df.drop(columns=...)` returns a new frame, the input is untouched. -/
def drop_columns_with_null (df : DataFrame) (threshold : ℚ) : DataFrame :=
  ⟨df.cols.filter fun c => !(decide (threshold < nullFrac df.nrows c))⟩

/-- A row-oriented DataFrame used by the outlier filter: column names plus
rows of numeric values. -/
structure RDataFrame where
  colNames : List String
  rows : List (List ℚ)
deriving DecidableEq

/-- Value of a row under a column name (0 when the name is absent, a case
the code never exercises). -/
def cellAt (colNames : List String) (r : List ℚ) (name : String) : ℚ :=
  r.getD (colNames.indexOf name) 0

/-- The values of one named column, as a list. -/
def colValues (df : RDataFrame) (name : String) : List ℚ :=
  df.rows.map (fun r => cellAt df.colNames r name)

/-- The pandas Series quantile with the default linear interpolation: on
the sorted values, position `h = q * (n - 1)` is split into integer part
`i` and fraction, and the result interpolates between the values at
positions `i` and `i + 1`. -/
def quantileQ (xs : List ℚ) (q : ℚ) : ℚ :=
  let s := xs.mergeSort (fun a b => decide (a ≤ b))
  match s with
  | [] => 0
  | _ :: _ =>
    let h : ℚ := q * ((s.length : ℚ) - 1)
    let i : Nat := h.floor.toNat
    let lo := s.getD i 0
    let hi := s.getD (i + 1) lo
    lo + (h - (h.floor : ℚ)) * (hi - lo)

/-- Lower IQR fence `Q1 - 1.5 * IQR` of a column of the original frame. -/
def lowerFence (df : RDataFrame) (name : String) : ℚ :=
  let q1 := quantileQ (colValues df name) (1 / 4)
  let q3 := quantileQ (colValues df name) (3 / 4)
  q1 - 3 / 2 * (q3 - q1)

/-- Upper IQR fence `Q3 + 1.5 * IQR` of a column of the original frame. -/
def upperFence (df : RDataFrame) (name : String) : ℚ :=
  let q1 := quantileQ (colValues df name) (1 / 4)
  let q3 := quantileQ (colValues df name) (3 / 4)
  q3 + 3 / 2 * (q3 - q1)

/-- Whether a row lies inside the closed IQR fence interval of one column,
the fences being those of the original frame `df`. -/
def fencePred (df : RDataFrame) (name : String) (r : List ℚ) : Bool :=
  decide (lowerFence df name ≤ cellAt df.colNames r name) &&
  decide (cellAt df.colNames r name ≤ upperFence df name)

/-- Embeds `PreprocessingUtils.remove_outliers_from_dataframe`
(preprocessing.py lines 102-118): starting from a copy of `df`, for each
listed column the quartiles are taken from the ORIGINAL `df` and the rows
of the running frame are filtered to the closed IQR fence interval. -/
def remove_outliers_from_dataframe (df : RDataFrame)
    (column_names : List String) : RDataFrame :=
  { colNames := df.colNames
    rows := column_names.foldl (fun rows column_name =>
      rows.filter (fun r => fencePred df column_name r)) df.rows }

/-- The strategies `impute_nulls` accepts. -/
def validStrategies : List String := ["mean", "median", "mode", "constant"]

/-- Non-null values of a column. -/
def colNonNull (c : DFCol) : List ℚ := c.values.filterMap id

/-- Mean of a list of rationals. -/
def meanQ (xs : List ℚ) : ℚ := xs.sum / (xs.length : ℚ)

/-- Median of a list of rationals (average of the two middle sorted values
when the length is even). -/
def medianQ (xs : List ℚ) : ℚ :=
  let s := xs.mergeSort (fun a b => decide (a ≤ b))
  match s with
  | [] => 0
  | _ :: _ =>
    if s.length % 2 = 1 then s.getD (s.length / 2) 0
    else (s.getD (s.length / 2 - 1) 0 + s.getD (s.length / 2) 0) / 2

/-- Fill value per strategy.  The source delegates the fill to
sklearn.SimpleImputer, an external library: mean and median are modelled
exactly; the remaining accepted strategies are modelled as a constant 0
fill (SimpleImputer with strategy constant fills numeric columns with 0 by
default), which no claim in scope depends on. -/
def imputeFill (strategy : String) (xs : List ℚ) : ℚ :=
  if strategy = "mean" then meanQ xs
  else if strategy = "median" then medianQ xs
  else 0

/-- Replace every null of a column by the fill value. -/
def fillNulls (fill : ℚ) (c : DFCol) : DFCol :=
  ⟨c.name, c.values.map (fun v => some (v.getD fill))⟩

/-- Embeds `PreprocessingUtils.impute_nulls` (preprocessing.py lines
65-100): a strategy outside `validStrategies` raises ValueError before any
imputation touches the frame; otherwise every column has its nulls filled
by the strategy value computed from its non-null entries. -/
def impute_nulls (df : DataFrame) (strategy : String) :
    Except String DataFrame :=
  if strategy ∉ validStrategies then
    Except.error "Invalid strategy"
  else
    Except.ok ⟨df.cols.map (fun c => fillNulls (imputeFill strategy (colNonNull c)) c)⟩

/-! ## Example inputs used by the witnesses -/

/-- The boundary example of the spec: a reference row with metrics 0, 0 in
cluster 0 and one other row with metrics 3, 4 in cluster 1. -/
def exTable : List MRow := [⟨0, [Cell.num 0, Cell.num 0]⟩, ⟨1, [Cell.num 3, Cell.num 4]⟩]

/-- The score vector of `exTable` with reference cluster 0. -/
noncomputable def exScores : List ℝ :=
  [Real.sqrt ((0 : ℚ) : ℝ), Real.sqrt ((25 : ℚ) : ℝ)]

/-- A table whose cluster labels are 0, 1 and 2, used against the absent
reference id 99. -/
def exTable3 : List MRow :=
  [⟨0, [Cell.num 0]⟩, ⟨1, [Cell.num 3]⟩, ⟨2, [Cell.num 7]⟩]

/-- A table with a text cell in a metric column. -/
def exTableBad : List MRow := [⟨0, [Cell.num 1]⟩, ⟨1, [Cell.text "x"]⟩]

/-- A one-column frame with a null, used by the imputation witness. -/
def exFrame : DataFrame := ⟨[⟨"a", [some 1, none]⟩]⟩

/-! ## Helper lemmas -/

lemma sqrt_monotone : Monotone Real.sqrt := fun _ _ h => Real.sqrt_le_sqrt h

lemma sqrt_rat_min (a b : ℚ) :
    Real.sqrt ((min a b : ℚ) : ℝ) =
      min (Real.sqrt ((a : ℚ) : ℝ)) (Real.sqrt ((b : ℚ) : ℝ)) := by
  rw [Rat.cast_min]
  exact sqrt_monotone.map_min

lemma sqrt_foldl_min (l : List ℚ) :
    ∀ init : ℚ, Real.sqrt ((l.foldl min init : ℚ) : ℝ) =
      (l.map fun q => Real.sqrt ((q : ℚ) : ℝ)).foldl min (Real.sqrt ((init : ℚ) : ℝ)) := by
  induction l with
  | nil => intro init; simp
  | cons a l ih =>
    intro init
    simp only [List.foldl_cons, List.map_cons]
    rw [ih (min init a), sqrt_rat_min]

lemma sqrt_minSqDist_eq (v r : List ℚ) (rs : List (List ℚ)) :
    Real.sqrt ((minSqDist v (r :: rs) : ℚ) : ℝ) = minEuclidDist v (r :: rs) := by
  show Real.sqrt (((rs.map (sqDist v)).foldl min (sqDist v r) : ℚ) : ℝ) =
    (rs.map (euclidDist v)).foldl min (euclidDist v r)
  rw [sqrt_foldl_min, List.map_map]
  rfl

lemma computeSqScores_ok_of_ne_nil (table : List MRow) (refId : Int) (sq : List ℚ)
    (h : computeSqScores table refId = Except.ok sq) (hne : table ≠ []) :
    refRowsOf table refId ≠ [] ∧
    sq = table.map (rowSqScore refId (refRowsOf table refId)) := by
  rw [computeSqScores] at h
  rw [if_neg (by simp [List.isEmpty_iff, hne])] at h
  by_cases hall : (table.all fun r => r.cells.all Cell.isNum) = false
  · rw [if_pos hall] at h; exact absurd h (by simp)
  · rw [if_neg hall] at h
    by_cases href : (refRowsOf table refId).isEmpty
    · rw [if_pos href] at h; exact absurd h (by simp)
    · rw [if_neg href] at h
      refine ⟨by simpa [List.isEmpty_iff] using href, (Except.ok.inj h).symm⟩

lemma computeSqScores_ok_length (table : List MRow) (refId : Int) (sq : List ℚ)
    (h : computeSqScores table refId = Except.ok sq) : sq.length = table.length := by
  by_cases hne : table = []
  · subst hne
    have hsq : sq = [] := by simpa [computeSqScores] using h.symm
    simp [hsq]
  · obtain ⟨-, hsqeq⟩ := computeSqScores_ok_of_ne_nil table refId sq h hne
    simp [hsqeq]

lemma computeScores_ok_get (table : List MRow) (refId : Int) (scores : List ℝ)
    (hok : computeScores table refId = Except.ok scores)
    (i : Nat) (hi : i < table.length) (hi' : i < scores.length) :
    refRowsOf table refId ≠ [] ∧
    scores.get ⟨i, hi'⟩ =
      Real.sqrt ((rowSqScore refId (refRowsOf table refId) (table.get ⟨i, hi⟩) : ℚ) : ℝ) := by
  rw [computeScores] at hok
  cases hsq : computeSqScores table refId with
  | error e => rw [hsq] at hok; exact absurd hok (by simp [Except.map])
  | ok sq =>
    rw [hsq] at hok
    replace hok : sq.map (fun q => Real.sqrt ((q : ℚ) : ℝ)) = scores := by
      simpa [Except.map] using hok
    have hne : table ≠ [] := by
      intro hempty
      rw [hempty] at hi
      exact absurd hi (by simp)
    obtain ⟨href, hsqeq⟩ := computeSqScores_ok_of_ne_nil table refId sq hsq hne
    subst hsqeq
    subst hok
    refine ⟨href, ?_⟩
    simp [List.get_eq_getElem, List.getElem_map]

lemma computeScores_ok_of (table : List MRow) (refId : Int)
    (hne : table ≠ [])
    (hnum : (table.all fun r => r.cells.all Cell.isNum) = true)
    (href : ∃ r ∈ table, r.cluster = refId) :
    computeScores table refId =
      Except.ok ((table.map (rowSqScore refId (refRowsOf table refId))).map
        (fun q => Real.sqrt ((q : ℚ) : ℝ))) := by
  have hrefs : ¬ (refRowsOf table refId).isEmpty = true := by
    rw [List.isEmpty_iff]
    intro hnil
    obtain ⟨r, hr, hcl⟩ := href
    have hmem : r ∈ table.filter (fun x => x.cluster == refId) :=
      List.mem_filter.mpr ⟨hr, by simp [hcl]⟩
    rw [refRowsOf, List.map_eq_nil_iff] at hnil
    rw [hnil] at hmem
    exact absurd hmem (List.not_mem_nil r)
  rw [computeScores, computeSqScores, if_neg (by simp [List.isEmpty_iff, hne]),
    if_neg (by simp [hnum]), if_neg hrefs]
  rfl

lemma computeSqScores_exTable : computeSqScores exTable 0 = Except.ok [0, 25] := by
  norm_num [computeSqScores, exTable, refRowsOf, rowSqScore, minSqDist, sqDist,
    Cell.toQ, Cell.isNum]

lemma computeScores_exTable : computeScores exTable 0 = Except.ok exScores := by
  rw [computeScores, computeSqScores_exTable]
  rfl

lemma remove_outliers_foldl (df : RDataFrame) (names : List String) :
    ∀ rows : List (List ℚ),
      names.foldl (fun rows column_name =>
          rows.filter (fun r => fencePred df column_name r)) rows =
        rows.filter (fun r => names.all (fun name => fencePred df name r)) := by
  induction names with
  | nil => intro rows; simp
  | cons n ns ih =>
    intro rows
    rw [List.foldl_cons, ih, List.filter_filter]
    congr 1
    funext r
    rw [List.all_cons]
    exact Bool.and_comm _ _

/-! ## The claims -/

/-- Claim C1: for every non-empty metrics table whose metric columns are
numeric and whose reference cluster id occurs among the labels,
compute_scores returns a score vector in which every row with a different
cluster label gets a non-negative score equal to the minimum Euclidean
distance between its metric vector and the metric vectors of the rows
labelled with the reference id. -/
theorem compute_scores_nonref_min_dist
    (table : List MRow) (refId : Int)
    (hnum : (table.all fun r => r.cells.all Cell.isNum) = true)
    (href : ∃ r ∈ table, r.cluster = refId)
    (i : Nat) (hi : i < table.length)
    (hc : (table.get ⟨i, hi⟩).cluster ≠ refId) :
    ∃ (scores : List ℝ) (hlt : i < scores.length),
      computeScores table refId = Except.ok scores ∧
      0 ≤ scores.get ⟨i, hlt⟩ ∧
      scores.get ⟨i, hlt⟩ =
        minEuclidDist ((table.get ⟨i, hi⟩).cells.map Cell.toQ)
          (refRowsOf table refId) := by
  have hne : table ≠ [] := by
    intro hempty
    rw [hempty] at hi
    exact absurd hi (by simp)
  have hok := computeScores_ok_of table refId hne hnum href
  have hlt : i < ((table.map (rowSqScore refId (refRowsOf table refId))).map
      (fun q : ℚ => Real.sqrt ((q : ℚ) : ℝ))).length := by
    simpa using hi
  refine ⟨_, hlt, hok, ?_, ?_⟩
  · rw [(computeScores_ok_get table refId _ hok i hi hlt).2]
    exact Real.sqrt_nonneg _
  · obtain ⟨hrnn, hget⟩ := computeScores_ok_get table refId _ hok i hi hlt
    rw [hget]
    rw [rowSqScore, if_neg (by simpa using hc)]
    obtain ⟨r, rs, hrr⟩ := List.exists_cons_of_ne_nil hrnn
    rw [hrr]
    exact sqrt_minSqDist_eq _ r rs

/-- Witness for C1: on the two-row boundary example with reference metrics
0, 0 and other row 3, 4, the non-reference score is the minimum Euclidean
distance to the reference set, which is 5. -/
theorem compute_scores_nonref_min_dist_witness :
    (∃ (scores : List ℝ) (hlt : 1 < scores.length),
      computeScores exTable 0 = Except.ok scores ∧
      0 ≤ scores.get ⟨1, hlt⟩ ∧
      scores.get ⟨1, hlt⟩ = minEuclidDist [3, 4] [[0, 0]]) ∧
    minEuclidDist [3, 4] [[0, 0]] = 5 := by
  constructor
  · exact compute_scores_nonref_min_dist exTable 0 (by decide) (by decide) 1
      (by decide) (by decide)
  · show euclidDist [3, 4] [0, 0] = 5
    show Real.sqrt ((sqDist [3, 4] [0, 0] : ℚ) : ℝ) = 5
    rw [show (sqDist [3, 4] [0, 0] : ℚ) = 25 by norm_num [sqDist]]
    rw [show ((25 : ℚ) : ℝ) = 5 ^ 2 by norm_num]
    exact Real.sqrt_sq (by norm_num)

/-- Claim C2: every row whose cluster label equals the reference cluster id
receives from compute_scores a score exactly equal to 0. -/
theorem compute_scores_ref_zero
    (table : List MRow) (refId : Int) (scores : List ℝ)
    (hok : computeScores table refId = Except.ok scores)
    (i : Nat) (hi : i < table.length) (hi' : i < scores.length)
    (hc : (table.get ⟨i, hi⟩).cluster = refId) :
    scores.get ⟨i, hi'⟩ = 0 := by
  obtain ⟨-, hget⟩ := computeScores_ok_get table refId scores hok i hi hi'
  rw [hget, rowSqScore, if_pos (by simpa using hc)]
  simp

/-- Witness for C2: the reference row of the boundary example scores 0. -/
theorem compute_scores_ref_zero_witness :
    exScores.get ⟨0, by decide⟩ = 0 :=
  compute_scores_ref_zero exTable 0 exScores computeScores_exTable 0
    (by decide) (by decide) rfl

/-- Claim C3: on a non-empty numeric metrics table none of whose cluster
labels equals the supplied reference id, compute_scores fails with
InvalidReferenceCluster instead of returning a score vector. -/
theorem compute_scores_missing_reference
    (table : List MRow) (refId : Int)
    (hne : table ≠ [])
    (hnum : (table.all fun r => r.cells.all Cell.isNum) = true)
    (hmiss : ∀ r ∈ table, r.cluster ≠ refId) :
    computeScores table refId = Except.error ScoreError.invalidReferenceCluster := by
  have hrefs : (refRowsOf table refId).isEmpty = true := by
    rw [refRowsOf]
    simp only [List.isEmpty_iff, List.map_eq_nil_iff, List.filter_eq_nil_iff]
    intro r hr
    simpa using hmiss r hr
  rw [computeScores, computeSqScores, if_neg (by simp [List.isEmpty_iff, hne]),
    if_neg (by simp [hnum]), if_pos hrefs]
  rfl

/-- Witness for C3: reference id 99 against cluster labels 0, 1, 2 raises
InvalidReferenceCluster. -/
theorem compute_scores_missing_reference_witness :
    computeScores exTable3 99 = Except.error ScoreError.invalidReferenceCluster :=
  compute_scores_missing_reference exTable3 99 (by decide) (by decide) (by decide)

/-- Claim C4: whenever compute_scores succeeds, the score vector has one
entry per input row and the i-th entry is the score of the i-th input row,
so the output order equals the input order. -/
theorem compute_scores_length_order
    (table : List MRow) (refId : Int) (scores : List ℝ)
    (hok : computeScores table refId = Except.ok scores) :
    scores.length = table.length ∧
    ∀ (i : Nat) (hi : i < table.length) (hi' : i < scores.length),
      scores.get ⟨i, hi'⟩ =
        Real.sqrt ((rowSqScore refId (refRowsOf table refId) (table.get ⟨i, hi⟩) : ℚ) : ℝ) := by
  constructor
  · have hok' := hok
    rw [computeScores] at hok'
    cases hsq : computeSqScores table refId with
    | error e => rw [hsq] at hok'; exact absurd hok' (by simp [Except.map])
    | ok sq =>
      rw [hsq] at hok'
      replace hok' : sq.map (fun q : ℚ => Real.sqrt ((q : ℚ) : ℝ)) = scores := by
        simpa [Except.map] using hok'
      rw [← hok', List.length_map]
      exact computeSqScores_ok_length table refId sq hsq
  · exact fun i hi hi' => (computeScores_ok_get table refId scores hok i hi hi').2

/-- Witness for C4: on the boundary example the output has one score per
row and the first score is the score of the first row. -/
theorem compute_scores_length_order_witness :
    exScores.length = exTable.length ∧
    exScores.get ⟨0, by decide⟩ =
      Real.sqrt ((rowSqScore 0 (refRowsOf exTable 0) (exTable.get ⟨0, by decide⟩) : ℚ) : ℝ) := by
  obtain ⟨hlen, hord⟩ :=
    compute_scores_length_order exTable 0 exScores computeScores_exTable
  exact ⟨hlen, hord 0 (by decide) (by decide)⟩

/-- Claim C5: a metrics table containing a non-numeric metric cell makes
compute_scores fail with InvalidColumnType, with no partial score output. -/
theorem compute_scores_invalid_column_type
    (table : List MRow) (refId : Int)
    (hbad : ∃ r ∈ table, ∃ c ∈ r.cells, Cell.isNum c = false) :
    computeScores table refId = Except.error ScoreError.invalidColumnType := by
  have hall : (table.all fun r => r.cells.all Cell.isNum) = false := by
    obtain ⟨r, hr, c, hc, hcf⟩ := hbad
    rw [List.all_eq_false]
    refine ⟨r, hr, ?_⟩
    rw [Bool.not_eq_true, List.all_eq_false]
    exact ⟨c, hc, by rw [Bool.not_eq_true, hcf]⟩
  have hne : table ≠ [] := by
    obtain ⟨r, hr, -⟩ := hbad
    intro hempty
    rw [hempty] at hr
    exact absurd hr (List.not_mem_nil r)
  rw [computeScores, computeSqScores, if_neg (by simp [List.isEmpty_iff, hne]),
    if_pos hall]
  rfl

/-- Witness for C5: a table with a text value in a metric column raises
InvalidColumnType. -/
theorem compute_scores_invalid_column_type_witness :
    computeScores exTableBad 0 = Except.error ScoreError.invalidColumnType :=
  compute_scores_invalid_column_type exTableBad 0 (by decide)

/-- Claim C6: a metrics table with zero rows yields an empty score vector
and no error. -/
theorem compute_scores_empty_input (refId : Int) :
    computeScores [] refId = Except.ok [] := rfl

/-- Claim C7: compute_scores is deterministic and side-effect free; equal
inputs give equal score vectors, and the embedding manipulates its inputs
only by value. -/
theorem compute_scores_deterministic
    (t1 t2 : List MRow) (c1 c2 : Int) (ht : t1 = t2) (hc : c1 = c2) :
    computeScores t1 c1 = computeScores t2 c2 := by
  rw [ht, hc]

/-- Witness for C7: two invocations on the boundary example agree. -/
theorem compute_scores_deterministic_witness :
    computeScores exTable 0 = computeScores exTable 0 :=
  compute_scores_deterministic exTable exTable 0 0 rfl rfl

/-- Claim C8: drop_columns_with_null keeps exactly the columns whose null
fraction is at most the threshold, in their original order and with their
values unchanged; a column is dropped exactly when its null fraction
strictly exceeds the threshold. -/
theorem drop_columns_with_null_spec (df : DataFrame) (threshold : ℚ) :
    (drop_columns_with_null df threshold).cols.Sublist df.cols ∧
    ∀ c : DFCol, c ∈ (drop_columns_with_null df threshold).cols ↔
      c ∈ df.cols ∧ nullFrac df.nrows c ≤ threshold := by
  constructor
  · exact List.filter_sublist df.cols
  · intro c
    simp [drop_columns_with_null, List.mem_filter, not_lt]

/-- Claim C9: remove_outliers_from_dataframe keeps exactly the rows whose
value in every listed column lies inside the closed IQR fence interval of
that column, the quartiles being computed from the original input frame,
with the relative row order preserved and the column names untouched. -/
theorem remove_outliers_from_dataframe_spec (df : RDataFrame)
    (column_names : List String) :
    (remove_outliers_from_dataframe df column_names).colNames = df.colNames ∧
    (remove_outliers_from_dataframe df column_names).rows =
      df.rows.filter (fun r => column_names.all (fun name =>
        decide (lowerFence df name ≤ cellAt df.colNames r name ∧
          cellAt df.colNames r name ≤ upperFence df name))) := by
  refine ⟨rfl, ?_⟩
  simp only [remove_outliers_from_dataframe]
  rw [remove_outliers_foldl df column_names df.rows]
  simp only [fencePred, Bool.decide_and]

/-- Claim C10: a strategy outside mean, median, mode, constant makes
impute_nulls raise ValueError before any imputation. -/
theorem impute_nulls_invalid_strategy (df : DataFrame) (strategy : String)
    (h : strategy ∉ validStrategies) :
    impute_nulls df strategy = Except.error "Invalid strategy" := by
  rw [impute_nulls, if_pos h]

/-- Witness for C10: the sklearn spelling most_frequent is not an accepted
strategy name and is rejected. -/
theorem impute_nulls_invalid_strategy_witness :
    impute_nulls exFrame "most_frequent" = Except.error "Invalid strategy" :=
  impute_nulls_invalid_strategy exFrame "most_frequent" (by decide)

end TellCo
